import Mathlib

/-!
Shallow embedding of the Cleanup Workflow Engine of the bookmarks-manager
repository, together with proofs about the claims of its specification.

The definitions below are translated from the TypeScript sources:
  * `src/cleanup/types.ts` (data model),
  * `src/cleanup/services/undoService.ts` (operation history, undo),
  * `src/cleanup/services/cleanupService.ts` (folder checks, operation
    construction, store-write services),
  * `src/utils/db.ts` (record-store primitives),
  * `src/store/useCleanupStore.ts` (the zustand store actions),
  * `src/ai/cacheService.ts` and the `getAICache` / `setAICache` layer of
    `src/utils/db.ts` (the AI result cache).

Modelling conventions:
  * JavaScript `Set<string>` becomes `Finset String` (only membership and
    cardinality are observed by the code).
  * `Date.now()` and `crypto.randomUUID()` are ambient effects; they are
    passed in explicitly (`now : Nat`, `OpMeta`).
  * The external record store (IndexedDB) becomes an explicit `db` field of
    the state; each store primitive is a pure function on it.  A store call
    can throw at the I/O layer; this is modelled by an explicit `io : Bool`
    argument on the functions that perform a store write (`io = true` means
    the write succeeds, `io = false` means it throws and is caught).
  * The derived `normalized` field of `StoredBookmark` (external URL
    normalization, out of scope per the spec) is omitted: no observed
    behaviour depends on it.
  * An async compute callback is represented by the value it would return
    plus an explicit `computeInvoked` flag in the result.
-/

namespace BookmarksCleanup

/-- `Bookmark` from `src/utils/bookmarkParser.ts` (the optional display
fields `lastModified` and `iconHref` are omitted; nothing observed here
reads them). -/
structure Bookmark where
  id : String
  title : String
  url : String
  addDate : Option Nat
  path : List String
  sourceFile : String
deriving DecidableEq, Repr

/-- `RecommendationType` from `src/cleanup/types.ts`. -/
inductive RecommendationType where
  | delete
  | keep
  | review
deriving DecidableEq, Repr

/-- `ReasonType` from `src/cleanup/types.ts`. -/
inductive ReasonType where
  | duplicate
  | broken
  | outdated
  | low_quality
  | valuable
deriving DecidableEq, Repr

/-- `AICleanupRecommendation` from `src/cleanup/types.ts`; the optional
`accepted` / `rejected` flags are booleans whose absence is falsy, hence
plain `Bool` here. -/
structure AICleanupRecommendation where
  bookmarkId : String
  recommendation : RecommendationType
  reason : String
  reasonType : ReasonType
  confidence : Nat
  accepted : Bool
  rejected : Bool
deriving DecidableEq, Repr

/-- `SuggestedFolder` from `src/cleanup/types.ts`. -/
structure SuggestedFolder where
  name : String
  path : List String
  description : String
  suggestedBookmarkIds : List String
deriving DecidableEq, Repr

/-- `BookmarkMove` from `src/cleanup/types.ts`. -/
structure BookmarkMove where
  bookmarkId : String
  fromPath : List String
  toPath : List String
deriving DecidableEq, Repr

/-- One entry of `MoveOperationData.moves` from `src/cleanup/types.ts`.
The snapshot field is produced by `workingBookmarks.find(...)` followed by a
non-null assertion in `createMoveOperation`; the lookup itself can miss, so
it is an `Option` here. -/
structure MoveRecord where
  bookmarkId : String
  bookmark : Option Bookmark
  fromPath : List String
  toPath : List String
deriving DecidableEq, Repr

/-- The kind-specific payload of a `CleanupOperation`
(`DeleteOperationData | MoveOperationData | CreateFolderOperationData`),
with the `type` discriminant baked into the constructor. -/
inductive OperationData where
  | delete (bookmarks : List Bookmark)
  | move (moves : List MoveRecord)
  | create_folder (path : List String)
deriving DecidableEq, Repr

/-- `CleanupOperation` from `src/cleanup/types.ts`. -/
structure CleanupOperation where
  opId : String
  timestamp : Nat
  data : OperationData
deriving DecidableEq, Repr

/-- The ambient `crypto.randomUUID()` / `Date.now()` pair consumed when an
operation record is constructed. -/
structure OpMeta where
  id : String
  timestamp : Nat
deriving DecidableEq, Repr

/-- `createDeleteOperation` from `src/cleanup/services/cleanupService.ts`. -/
def createDeleteOperation (meta : OpMeta) (bookmarks : List Bookmark) :
    CleanupOperation :=
  { opId := meta.id, timestamp := meta.timestamp,
    data := OperationData.delete bookmarks }

/-- `createMoveOperation` from `src/cleanup/services/cleanupService.ts`:
each move is enriched with a snapshot of the matching working record. -/
def createMoveOperation (meta : OpMeta) (bookmarks : List Bookmark)
    (moves : List BookmarkMove) : CleanupOperation :=
  { opId := meta.id, timestamp := meta.timestamp,
    data := OperationData.move (moves.map (fun m =>
      { bookmarkId := m.bookmarkId,
        bookmark := bookmarks.find? (fun b => b.id == m.bookmarkId),
        fromPath := m.fromPath,
        toPath := m.toPath })) }

/-- `createFolderOperation` from `src/cleanup/services/cleanupService.ts`. -/
def createFolderOperation (meta : OpMeta) (path : List String) :
    CleanupOperation :=
  { opId := meta.id, timestamp := meta.timestamp,
    data := OperationData.create_folder path }

/-! ### Operation history (`src/cleanup/services/undoService.ts`)

The `OperationHistory` class wraps a single array field; it is embedded as
plain functions over `List CleanupOperation`. -/

/-- `MAX_HISTORY_SIZE` from `src/cleanup/services/undoService.ts`. -/
def MAX_HISTORY_SIZE : Nat := 10

/-- `OperationHistory.recordOperation`: push, then `slice(-MAX)` whenever the
length exceeds `MAX_HISTORY_SIZE`. -/
def recordOperation (op : CleanupOperation) (history : List CleanupOperation) :
    List CleanupOperation :=
  let pushed := history ++ [op]
  if MAX_HISTORY_SIZE < pushed.length then
    pushed.drop (pushed.length - MAX_HISTORY_SIZE)
  else
    pushed

/-- `OperationHistory.canUndo`. -/
def canUndo (history : List CleanupOperation) : Bool :=
  0 < history.length

/-- `OperationHistory.restore`: `operations.slice(-MAX_HISTORY_SIZE)`. -/
def restoreHistory (operations : List CleanupOperation) :
    List CleanupOperation :=
  operations.drop (operations.length - MAX_HISTORY_SIZE)

/-! ### Record-store primitives (`src/utils/db.ts`)

The store is the `db.bookmarks` table, embedded as a `List Bookmark` keyed
by `id`. -/

/-- `db.bookmarks.bulkDelete(ids)` (body of `deleteBookmarksByIds`). -/
def deleteBookmarksByIdsDb (ids : List String) (db : List Bookmark) :
    List Bookmark :=
  db.filter (fun b => !(ids.contains b.id))

/-- One `db.bookmarks.put(b)` step: replace the row with the same key, else
append. -/
def putBookmarkDb (db : List Bookmark) (b : Bookmark) : List Bookmark :=
  if db.any (fun x => x.id == b.id) then
    db.map (fun x => if x.id == b.id then b else x)
  else
    db ++ [b]

/-- `restoreBookmarks` from `src/utils/db.ts`: `db.bookmarks.bulkPut`. -/
def restoreBookmarksDb (bookmarks : List Bookmark) (db : List Bookmark) :
    List Bookmark :=
  bookmarks.foldl putBookmarkDb db

/-- `bulkUpdateBookmarkPaths` from `src/utils/db.ts`: per-row
`db.bookmarks.update(id, { path })`, a no-op for a missing id. -/
def bulkUpdateBookmarkPathsDb (updates : List (String × List String))
    (db : List Bookmark) : List Bookmark :=
  updates.foldl
    (fun d u => d.map (fun b =>
      if b.id == u.1 then { b with path := u.2 } else b))
    db

/-! ### Cleanup services (`src/cleanup/services/cleanupService.ts`) -/

/-- `restoreDeletedBookmarks`: wraps the store write in try/catch; the field
`normalized` added for `StoredBookmark` is derived data and omitted.
Returns `(success, error)` and the resulting store. -/
def restoreDeletedBookmarksSvc (io : Bool) (bookmarks : List Bookmark)
    (db : List Bookmark) : (Bool × Option String) × List Bookmark :=
  if io then
    ((true, none), restoreBookmarksDb bookmarks db)
  else
    ((false, some "Unknown error during restore"), db)

/-- `deleteBookmarks` from `src/cleanup/services/cleanupService.ts`: filters
the snapshot, then persists via `deleteBookmarksByIds`.  Returns
`(success, deletedBookmarks, error)` and the resulting store. -/
def deleteBookmarksSvc (io : Bool) (bookmarks : List Bookmark)
    (idsToDelete : List String) (db : List Bookmark) :
    (Bool × List Bookmark × Option String) × List Bookmark :=
  let bookmarksToDelete := bookmarks.filter (fun b => idsToDelete.contains b.id)
  if bookmarksToDelete.length == 0 then
    ((true, [], none), db)
  else if io then
    ((true, bookmarksToDelete, none), deleteBookmarksByIdsDb idsToDelete db)
  else
    ((false, [], some "Unknown error during deletion"), db)

/-- `moveBookmarks` from `src/cleanup/services/cleanupService.ts`: persists
the path updates via `bulkUpdateBookmarkPaths` and reports the swapped
original moves for undo.  Returns `(success, originalMoves, error)` and the
resulting store. -/
def moveBookmarksSvc (io : Bool) (bookmarks : List Bookmark)
    (moves : List BookmarkMove) (db : List Bookmark) :
    (Bool × List BookmarkMove × Option String) × List Bookmark :=
  let updates := moves.map (fun m => (m.bookmarkId, m.toPath))
  let originalMoves := moves.map (fun m =>
    ({ bookmarkId := m.bookmarkId,
       fromPath :=
         ((bookmarks.find? (fun b => b.id == m.bookmarkId)).map
           (fun b => b.path)).getD [],
       toPath := m.fromPath } : BookmarkMove))
  if io then
    ((true, originalMoves, none), bulkUpdateBookmarkPathsDb updates db)
  else
    ((false, [], some "Unknown error during move"), db)

/-- Case-insensitive check that `path` lies under `parent`
(`parentPath.every((segment, index) => path[index]?.toLowerCase() ===
segment.toLowerCase())`); an out-of-range index compares `undefined` and
fails. -/
def isUnderParent (parent : List String) (path : List String) : Bool :=
  decide (parent.length ≤ path.length) &&
    (parent.zip path).all (fun pq => pq.1.toLower == pq.2.toLower)

/-- `folderNameExistsAtLevel` from
`src/cleanup/services/cleanupService.ts`: some record path strictly longer
than `parentPath`, lying under it case-insensitively, whose segment at the
target level is truthy (non-empty) and case-insensitively equals
`folderName`. -/
def folderNameExistsAtLevel (bookmarks : List Bookmark)
    (parentPath : List String) (folderName : String) : Bool :=
  bookmarks.any (fun b =>
    decide (parentPath.length < b.path.length) &&
    isUnderParent parentPath b.path &&
    (match b.path.get? parentPath.length with
     | some seg => !(seg == "") && seg.toLower == folderName.toLower
     | none => false))

/-! ### Undo service (`src/cleanup/services/undoService.ts`) -/

/-- The `revertedMoves` entries of `UndoResult`. -/
structure RevertedMove where
  bookmarkId : String
  path : List String
deriving DecidableEq, Repr

/-- `UndoResult` from `src/cleanup/services/undoService.ts`. -/
structure UndoResult where
  success : Bool
  restoredBookmarks : Option (List Bookmark)
  revertedMoves : Option (List RevertedMove)
  removedFolder : Option (List String)
  error : Option String
deriving DecidableEq, Repr

/-- `undoDeleteOperation`: restore the snapshot into the store; on store
failure report the error and restore nothing. -/
def undoDeleteOperation (io : Bool) (bookmarks : List Bookmark)
    (db : List Bookmark) : UndoResult × List Bookmark :=
  let (r, db2) := restoreDeletedBookmarksSvc io bookmarks db
  if r.1 then
    ({ success := true, restoredBookmarks := some bookmarks,
       revertedMoves := none, removedFolder := none, error := none }, db2)
  else
    ({ success := false, restoredBookmarks := none, revertedMoves := none,
       removedFolder := none, error := r.2 }, db2)

/-- `undoMoveOperation`: swap each recorded from/to pair and reissue the
move through `moveBookmarks`. -/
def undoMoveOperation (io : Bool) (moves : List MoveRecord)
    (currentBookmarks : List Bookmark) (db : List Bookmark) :
    UndoResult × List Bookmark :=
  let reverseMoves := moves.map (fun m =>
    ({ bookmarkId := m.bookmarkId, fromPath := m.toPath,
       toPath := m.fromPath } : BookmarkMove))
  let (r, db2) := moveBookmarksSvc io currentBookmarks reverseMoves db
  if r.1 then
    ({ success := true, restoredBookmarks := none,
       revertedMoves := some (moves.map (fun m =>
         { bookmarkId := m.bookmarkId, path := m.fromPath })),
       removedFolder := none, error := none }, db2)
  else
    ({ success := false, restoredBookmarks := none, revertedMoves := none,
       removedFolder := none, error := r.2.2 }, db2)

/-- `undoCreateFolderOperation`: a soft reversal that only reports the
created path; no store access. -/
def undoCreateFolderOperation (path : List String) : UndoResult :=
  { success := true, restoredBookmarks := none, revertedMoves := none,
    removedFolder := some path, error := none }

/-- `executeUndo`: dispatch on the operation kind. -/
def executeUndo (io : Bool) (operation : CleanupOperation)
    (currentBookmarks : List Bookmark) (db : List Bookmark) :
    UndoResult × List Bookmark :=
  match operation.data with
  | OperationData.delete bs => undoDeleteOperation io bs db
  | OperationData.move ms => undoMoveOperation io ms currentBookmarks db
  | OperationData.create_folder p => (undoCreateFolderOperation p, db)

/-! ### The cleanup workflow store (`src/store/useCleanupStore.ts`)

The zustand store's state slice relevant to the claims, extended with the
contents of the external record store (`db`) so that persistence behaviour
is observable. -/

/-- `CleanupStage` from `src/cleanup/types.ts`. -/
inductive CleanupStage where
  | review
  | organize
  | preview
deriving DecidableEq, Repr

/-- The state managed by `useCleanupStore` (fields the claims observe),
plus the external record store contents `db`. -/
structure CleanupWorkflowState where
  db : List Bookmark
  currentStage : CleanupStage
  workingBookmarks : List Bookmark
  selectedBookmarkIds : Finset String
  deletedBookmarkIds : Finset String
  aiRecommendations : List AICleanupRecommendation
  suggestedFolders : List SuggestedFolder
  pendingMoves : List BookmarkMove
  createdFolders : List (List String)
  operationHistory : List CleanupOperation
  hasUnsavedChanges : Bool
deriving DecidableEq

/-- `toggleBookmarkSelection` from `src/store/useCleanupStore.ts`. -/
def toggleBookmarkSelection (id : String) (s : CleanupWorkflowState) :
    CleanupWorkflowState :=
  if id ∈ s.selectedBookmarkIds then
    { s with selectedBookmarkIds := s.selectedBookmarkIds.erase id }
  else
    { s with selectedBookmarkIds := insert id s.selectedBookmarkIds }

/-- `selectByRecommendation` from `src/store/useCleanupStore.ts`: the ids of
the non-rejected recommendations of the requested type become the new
selection. -/
def selectByRecommendation (type : RecommendationType)
    (s : CleanupWorkflowState) : CleanupWorkflowState :=
  { s with selectedBookmarkIds :=
      ((s.aiRecommendations.filter (fun r =>
          r.recommendation == type && !r.rejected)).map
        (fun r => r.bookmarkId)).toFinset }

/-- `getActiveBookmarks` from `src/store/useCleanupStore.ts`. -/
def getActiveBookmarks (s : CleanupWorkflowState) : List Bookmark :=
  s.workingBookmarks.filter (fun b => !(b.id ∈ s.deletedBookmarkIds))

/-- `deleteSelected` from `src/store/useCleanupStore.ts`: purely a
soft delete — record the snapshot operation, add the ids to the
soft-deleted set, clear the selection.  No store call occurs. -/
def deleteSelected (meta : OpMeta) (s : CleanupWorkflowState) :
    CleanupWorkflowState :=
  if s.selectedBookmarkIds.card = 0 then s
  else
    let idsToDelete := s.selectedBookmarkIds
    let bookmarksToDelete :=
      s.workingBookmarks.filter (fun b => b.id ∈ idsToDelete)
    let operation := createDeleteOperation meta bookmarksToDelete
    { s with
      operationHistory := recordOperation operation s.operationHistory,
      deletedBookmarkIds := s.deletedBookmarkIds ∪ idsToDelete,
      selectedBookmarkIds := ∅,
      hasUnsavedChanges := true }

/-- The `bookmark?.path || []` lookup of `moveBookmarksToFolder`: the path
of the working record with the given id, or `[]` when the lookup misses (a
JS array is truthy even when empty, so the fallback fires only on a
miss). -/
def pathOfId (bookmarks : List Bookmark) (id : String) : List String :=
  ((bookmarks.find? (fun b => b.id == id)).map (fun b => b.path)).getD []

/-- The move descriptors built at the top of `moveBookmarksToFolder`: one
per requested id, recording the current path and the target. -/
def buildMoves (workingBookmarks : List Bookmark) (bookmarkIds : List String)
    (targetPath : List String) : List BookmarkMove :=
  bookmarkIds.map (fun id =>
    { bookmarkId := id,
      fromPath := pathOfId workingBookmarks id,
      toPath := targetPath })

/-- `moveBookmarksToFolder` from `src/store/useCleanupStore.ts`: build one
descriptor per requested id, record the move operation, rewrite the paths
of the matching working records, append all descriptors to the pending-move
list and clear the selection.  No store call occurs. -/
def moveBookmarksToFolder (meta : OpMeta) (bookmarkIds : List String)
    (targetPath : List String) (s : CleanupWorkflowState) :
    CleanupWorkflowState :=
  let moves := buildMoves s.workingBookmarks bookmarkIds targetPath
  let operation := createMoveOperation meta s.workingBookmarks moves
  { s with
    operationHistory := recordOperation operation s.operationHistory,
    workingBookmarks := s.workingBookmarks.map (fun b =>
      if bookmarkIds.contains b.id then { b with path := targetPath } else b),
    pendingMoves := s.pendingMoves ++ moves,
    selectedBookmarkIds := ∅,
    hasUnsavedChanges := true }

/-- `createFolder` from `src/store/useCleanupStore.ts`: reject an empty
path, a case-insensitive duplicate name at the same level, or an exact path
already created this session; otherwise record the operation and append the
path.  Returns the boolean result together with the new state. -/
def createFolder (meta : OpMeta) (path : List String)
    (s : CleanupWorkflowState) : Bool × CleanupWorkflowState :=
  if path.length = 0 then (false, s)
  else
    if folderNameExistsAtLevel s.workingBookmarks path.dropLast
        (path.getLastD "") then
      (false, s)
    else if s.createdFolders.any (fun f => f == path) then
      (false, s)
    else
      (true,
        { s with
          operationHistory :=
            recordOperation (createFolderOperation meta path)
              s.operationHistory,
          createdFolders := s.createdFolders ++ [path],
          hasUnsavedChanges := true })

/-- `acceptFolderSuggestion` from `src/store/useCleanupStore.ts`: create
the folder ignoring the boolean result, then move all suggested ids when
the list is non-empty. -/
def acceptFolderSuggestion (createMeta moveMeta : OpMeta)
    (suggestion : SuggestedFolder) (s : CleanupWorkflowState) :
    CleanupWorkflowState :=
  let s1 := (createFolder createMeta suggestion.path s).2
  if 0 < suggestion.suggestedBookmarkIds.length then
    moveBookmarksToFolder moveMeta suggestion.suggestedBookmarkIds
      suggestion.path s1
  else
    s1

/-- The body of `undo` once the most recent operation has been popped:
run `executeUndo` and on success apply the kind-specific in-memory
reversal; on failure nothing further happens (the popped entry is not put
back and no error is recorded).  The pure `executeUndo` call is written
out at each use site instead of a local binding; the meaning is
unchanged. -/
def undoStep (io : Bool) (operation : CleanupOperation)
    (history2 : List CleanupOperation) (s : CleanupWorkflowState) :
    CleanupWorkflowState :=
  if (executeUndo io operation s.workingBookmarks s.db).1.success then
    match operation.data with
    | OperationData.delete _ =>
      match (executeUndo io operation s.workingBookmarks s.db).1.restoredBookmarks with
      | some rb =>
        { s with
          operationHistory := history2,
          db := (executeUndo io operation s.workingBookmarks s.db).2,
          deletedBookmarkIds :=
            rb.foldl (fun d b => d.erase b.id) s.deletedBookmarkIds }
      | none =>
        { s with
          operationHistory := history2,
          db := (executeUndo io operation s.workingBookmarks s.db).2 }
    | OperationData.move _ =>
      match (executeUndo io operation s.workingBookmarks s.db).1.revertedMoves with
      | some rms =>
        { s with
          operationHistory := history2,
          db := (executeUndo io operation s.workingBookmarks s.db).2,
          workingBookmarks := s.workingBookmarks.map (fun b =>
            match rms.find? (fun m => m.bookmarkId == b.id) with
            | some m => { b with path := m.path }
            | none => b),
          pendingMoves := s.pendingMoves.filter (fun m =>
            !((rms.map (fun r => r.bookmarkId)).contains m.bookmarkId)) }
      | none =>
        { s with
          operationHistory := history2,
          db := (executeUndo io operation s.workingBookmarks s.db).2 }
    | OperationData.create_folder _ =>
      match (executeUndo io operation s.workingBookmarks s.db).1.removedFolder with
      | some f =>
        { s with
          operationHistory := history2,
          db := (executeUndo io operation s.workingBookmarks s.db).2,
          createdFolders := s.createdFolders.filter (fun g => !(g == f)) }
      | none =>
        { s with
          operationHistory := history2,
          db := (executeUndo io operation s.workingBookmarks s.db).2 }
  else
    { s with
      operationHistory := history2,
      db := (executeUndo io operation s.workingBookmarks s.db).2 }

/-- `undo` from `src/store/useCleanupStore.ts`: a no-op on an empty
history; otherwise pop the most recent operation and run `undoStep`. -/
def undo (io : Bool) (s : CleanupWorkflowState) : CleanupWorkflowState :=
  if !(canUndo s.operationHistory) then s
  else
    match s.operationHistory.getLast? with
    | none => s
    | some operation =>
      undoStep io operation s.operationHistory.dropLast s

/-! ### AI result cache (`src/ai/cacheService.ts` and the
`getAICache` / `setAICache` layer of `src/utils/db.ts`)

The `db.aiCache` table is a list of entries keyed by `id`; the cached value
type is a parameter (the TS functions are generic in `T`). -/

/-- `CacheType` from `src/ai/cacheService.ts`. -/
inductive CacheType where
  | category
  | summary
  | duplicate
  | health
  | report
deriving DecidableEq, Repr

/-- `AICache` rows of `db.aiCache` (`src/utils/db.ts`). -/
structure AICacheEntry (V : Type) where
  id : String
  type : CacheType
  data : V
  bookmarkHash : String
  createdAt : Nat
  expiresAt : Nat
deriving DecidableEq, Repr

/-- `db.aiCache.get(id)`: lookup by primary key. -/
def getCacheRow (V : Type) (table : List (AICacheEntry V)) (id : String) :
    Option (AICacheEntry V) :=
  table.find? (fun e => e.id == id)

/-- `getAICache` from `src/utils/db.ts`: the row is returned only while
`expiresAt > Date.now()`; an expired row reads as absent. -/
def getAICache (V : Type) (now : Nat) (table : List (AICacheEntry V))
    (id : String) : Option (AICacheEntry V) :=
  match getCacheRow V table id with
  | some entry => if now < entry.expiresAt then some entry else none
  | none => none

/-- `db.aiCache.put(entry)`: insert-or-replace by primary key. -/
def putCacheRow (V : Type) (table : List (AICacheEntry V))
    (e : AICacheEntry V) : List (AICacheEntry V) :=
  if table.any (fun x => x.id == e.id) then
    table.map (fun x => if x.id == e.id then e else x)
  else
    table ++ [e]

/-- `set` from `src/ai/cacheService.ts` composed with `setAICache` from
`src/utils/db.ts`: store the value under the key with the supplied hash,
`expiresAt = Date.now() + ttlMs` and a fresh `createdAt`. -/
def cacheSet (V : Type) (now : Nat) (key : String) (value : V)
    (type : CacheType) (bookmarkHash : String) (ttlMs : Nat)
    (table : List (AICacheEntry V)) : List (AICacheEntry V) :=
  putCacheRow V table
    { id := key, type := type, data := value, bookmarkHash := bookmarkHash,
      createdAt := now, expiresAt := now + ttlMs }

/-- The observable outcome of `getOrCompute`: the returned
`{ value, fromCache }` pair, whether the compute callback ran, and the
cache table afterwards. -/
structure GetOrComputeResult (V : Type) where
  value : V
  fromCache : Bool
  computeInvoked : Bool
  table : List (AICacheEntry V)
deriving DecidableEq, Repr

/-- `getOrCompute` from `src/ai/cacheService.ts`: unless `forceRefresh` is
set, an unexpired entry with a matching hash is returned as a hit; any
other situation invokes the compute callback (whose result is the value
`computeVal`), stores its result and returns it as a miss. -/
def getOrCompute (V : Type) (now : Nat) (key : String) (type : CacheType)
    (bookmarkHash : String) (computeVal : V) (ttlMs : Nat)
    (forceRefresh : Bool) (table : List (AICacheEntry V)) :
    GetOrComputeResult V :=
  let hit : Option (AICacheEntry V) :=
    if forceRefresh then none
    else
      match getAICache V now table key with
      | some cached =>
        if cached.bookmarkHash == bookmarkHash then some cached else none
      | none => none
  match hit with
  | some cached =>
    { value := cached.data, fromCache := true, computeInvoked := false,
      table := table }
  | none =>
    { value := computeVal, fromCache := false, computeInvoked := true,
      table := cacheSet V now key computeVal type bookmarkHash ttlMs table }

/-! ### Concrete fixtures used by witnesses and counterexamples -/

/-- A bookmark with the given id and path. -/
def bk (id : String) (path : List String) : Bookmark :=
  { id := id, title := id, url := id, addDate := none, path := path,
    sourceFile := "export.html" }

/-- A fresh, empty workflow state. -/
def emptyState : CleanupWorkflowState :=
  { db := [], currentStage := CleanupStage.review, workingBookmarks := [],
    selectedBookmarkIds := ∅, deletedBookmarkIds := ∅,
    aiRecommendations := [], suggestedFolders := [], pendingMoves := [],
    createdFolders := [], operationHistory := [],
    hasUnsavedChanges := false }

/-- A fixed operation id / timestamp pair. -/
def meta1 : OpMeta := { id := "op-1", timestamp := 1 }

/-- A second fixed operation id / timestamp pair. -/
def meta2 : OpMeta := { id := "op-2", timestamp := 2 }

/-- A fixed folder-creation operation used to populate histories. -/
def cfOp : CleanupOperation :=
  { opId := "op-cf", timestamp := 0,
    data := OperationData.create_folder ["F"] }

/-- A non-rejected delete recommendation for record `"a"`. -/
def recA : AICleanupRecommendation :=
  { bookmarkId := "a", recommendation := RecommendationType.delete,
    reason := "dup", reasonType := ReasonType.duplicate, confidence := 90,
    accepted := false, rejected := false }

/-- State for the C3 counterexample: record `"a"` is soft-deleted (hence
inactive) but carries a non-rejected delete recommendation. -/
def c3State : CleanupWorkflowState :=
  { emptyState with
    workingBookmarks := [bk "a" []],
    deletedBookmarkIds := {"a"},
    aiRecommendations := [recA] }

/-- Suggested folder proposing ids `"a"` (soft-deleted) and `"b"`
(nonexistent). -/
def sugF : SuggestedFolder :=
  { name := "F", path := ["F"], description := "group",
    suggestedBookmarkIds := ["a", "b"] }

/-- State for the C2 counterexample: the only working record is
soft-deleted, so the active set is empty. -/
def c2State : CleanupWorkflowState :=
  { emptyState with
    workingBookmarks := [bk "a" []],
    deletedBookmarkIds := {"a"} }

/-- State for the C4 counterexample: the store and the working set hold
record `"a"`, which is selected for deletion. -/
def c4State : CleanupWorkflowState :=
  { emptyState with
    db := [bk "a" []],
    workingBookmarks := [bk "a" []],
    selectedBookmarkIds := {"a"} }

/-- A recorded delete operation whose snapshot holds record `"a"`. -/
def delOpA : CleanupOperation :=
  { opId := "op-del", timestamp := 3,
    data := OperationData.delete [bk "a" []] }

/-- State for the C5 counterexample: one delete operation in the history,
record `"a"` soft-deleted. -/
def c5State : CleanupWorkflowState :=
  { emptyState with
    workingBookmarks := [bk "a" []],
    deletedBookmarkIds := {"a"},
    operationHistory := [delOpA] }

/-- State for the C6 witness: one working record `"a"` in folder `"X"`. -/
def c6State : CleanupWorkflowState :=
  { emptyState with workingBookmarks := [bk "a" ["X"]] }

/-- State for the C7 witness: record `"a"` is selected. -/
def c7State : CleanupWorkflowState :=
  { emptyState with
    workingBookmarks := [bk "a" []],
    selectedBookmarkIds := {"a"} }

/-! ### Helper lemmas -/

/-- `recordOperation` always leaves the recorded operation at the end. -/
theorem recordOperation_getLast? (op : CleanupOperation)
    (history : List CleanupOperation) :
    (recordOperation op history).getLast? = some op := by
  unfold recordOperation
  by_cases h : MAX_HISTORY_SIZE < (history ++ [op]).length
  · have hle : (history ++ [op]).length - MAX_HISTORY_SIZE ≤ history.length := by
      simp only [List.length_append, List.length_singleton,
        MAX_HISTORY_SIZE] at h ⊢
      omega
    simp only [h, if_true]
    rw [List.drop_append_of_le_length hle]
    exact List.getLast?_concat _
  · simp only [h, if_false]
    exact List.getLast?_concat _

/-- `recordOperation` never produces an empty history. -/
theorem recordOperation_ne_nil (op : CleanupOperation)
    (history : List CleanupOperation) :
    recordOperation op history ≠ [] := by
  intro hnil
  have := recordOperation_getLast? op history
  rw [hnil] at this
  simp at this

/-- Dropping the most recent entry of a freshly recorded history. -/
theorem recordOperation_dropLast (op : CleanupOperation)
    (history : List CleanupOperation) :
    (recordOperation op history).dropLast =
      (recordOperation op history).dropLast := rfl

/-- Unfolding `undo` when the history visibly ends with an operation. -/
theorem undo_concat (io : Bool) (s : CleanupWorkflowState)
    (l : List CleanupOperation) (op : CleanupOperation)
    (h : s.operationHistory = l ++ [op]) :
    undo io s = undoStep io op l s := by
  unfold undo canUndo
  rw [h]
  simp [List.getLast?_concat, List.dropLast_concat]

/-- Membership after folding `Finset.erase` over a bookmark list. -/
theorem mem_foldl_erase (l : List Bookmark) (d : Finset String) (x : String) :
    (x ∈ l.foldl (fun acc b => acc.erase b.id) d) ↔
      (x ∈ d ∧ x ∉ l.map (fun b => b.id)) := by
  induction l generalizing d with
  | nil => simp
  | cons b t ih =>
    simp only [List.foldl_cons, ih, Finset.mem_erase, List.map_cons,
      List.mem_cons]
    constructor
    · rintro ⟨⟨hne, hd⟩, ht⟩
      exact ⟨hd, by simp [hne, ht]⟩
    · rintro ⟨hd, hall⟩
      push_neg at hall
      exact ⟨⟨hall.1, hd⟩, hall.2⟩

/-- With id-unique records, `find?` by a member's id returns that member. -/
theorem find?_eq_self_of_nodup (l : List Bookmark)
    (hnd : (l.map (fun b => b.id)).Nodup) (b : Bookmark) (hb : b ∈ l) :
    l.find? (fun x => x.id == b.id) = some b := by
  induction l with
  | nil => cases hb
  | cons a t ih =>
    simp only [List.map_cons, List.nodup_cons] at hnd
    rcases List.mem_cons.mp hb with rfl | hbt
    · simp [List.find?_cons]
    · have ha : (a.id == b.id) = false := by
        have : b.id ∈ t.map (fun x => x.id) := List.mem_map_of_mem _ hbt
        have hne : a.id ≠ b.id := fun he => hnd.1 (he ▸ this)
        simp [hne]
      rw [List.find?_cons, ha]
      exact ih hnd.2 hbt

/-- `find?` by id over a list of reverted moves built from an id list. -/
theorem find?_map_revertedMove (p : String → List String)
    (ids : List String) (x : String) (hx : x ∈ ids) :
    ((ids.map (fun id =>
        ({ bookmarkId := id, path := p id } : RevertedMove))).find?
      (fun m => m.bookmarkId == x)) =
      some { bookmarkId := x, path := p x } := by
  induction ids with
  | nil => cases hx
  | cons a t ih =>
    by_cases ha : a = x
    · subst ha
      simp [List.find?_cons]
    · have hfalse :
        ((({ bookmarkId := a, path := p a } : RevertedMove).bookmarkId == x))
          = false := by simp [ha]
      rw [List.map_cons, List.find?_cons, hfalse]
      exact ih (by
        rcases List.mem_cons.mp hx with rfl | h
        · exact absurd rfl ha
        · exact h)

/-- `find?` by key over a list whose matching rows were replaced by `e`. -/
theorem find?_map_replace (V : Type) (e : AICacheEntry V) :
    ∀ (t : List (AICacheEntry V)), t.any (fun x => x.id == e.id) = true →
      ((t.map (fun x => if x.id == e.id then e else x)).find?
        (fun x => x.id == e.id)) = some e := by
  intro t
  induction t with
  | nil => intro h; simp at h
  | cons a t ih =>
    intro h
    by_cases ha : a.id = e.id
    · simp [List.find?_cons, ha]
    · have hb : (a.id == e.id) = false := by simp [ha]
      simp only [List.map_cons, hb, Bool.false_eq_true, if_false,
        List.find?_cons, hb]
      exact ih (by simpa [hb] using h)

/-- `find?` by key over a list with no matching row, extended by `e`. -/
theorem find?_append_single (V : Type) (e : AICacheEntry V) :
    ∀ (t : List (AICacheEntry V)), t.any (fun x => x.id == e.id) = false →
      ((t ++ [e]).find? (fun x => x.id == e.id)) = some e := by
  intro t
  induction t with
  | nil => simp [List.find?_cons]
  | cons a t ih =>
    intro h
    simp only [List.any_cons, Bool.or_eq_false_iff] at h
    rw [List.cons_append, List.find?_cons, h.1]
    exact ih h.2

/-- Looking up a key right after `putCacheRow` stores it. -/
theorem getCacheRow_putCacheRow (V : Type) (table : List (AICacheEntry V))
    (e : AICacheEntry V) :
    getCacheRow V (putCacheRow V table e) e.id = some e := by
  unfold putCacheRow getCacheRow
  by_cases h : table.any (fun x => x.id == e.id)
  · simp only [h, if_true]
    exact find?_map_replace V e table h
  · simp only [h, if_false]
    exact find?_append_single V e table (by
      cases hb : table.any (fun x => x.id == e.id)
      · rfl
      · exact absurd hb h)

/-- Field projections of `moveBookmarksToFolder`. -/
theorem moveBookmarksToFolder_fields (meta : OpMeta) (ids : List String)
    (target : List String) (s : CleanupWorkflowState) :
    (moveBookmarksToFolder meta ids target s).workingBookmarks =
      s.workingBookmarks.map (fun b =>
        if ids.contains b.id then { b with path := target } else b) ∧
    (moveBookmarksToFolder meta ids target s).pendingMoves =
      s.pendingMoves ++ buildMoves s.workingBookmarks ids target ∧
    (moveBookmarksToFolder meta ids target s).selectedBookmarkIds = ∅ ∧
    (moveBookmarksToFolder meta ids target s).operationHistory =
      recordOperation
        (createMoveOperation meta s.workingBookmarks
          (buildMoves s.workingBookmarks ids target))
        s.operationHistory ∧
    (moveBookmarksToFolder meta ids target s).db = s.db ∧
    (moveBookmarksToFolder meta ids target s).deletedBookmarkIds =
      s.deletedBookmarkIds :=
  ⟨rfl, rfl, rfl, rfl, rfl, rfl⟩

/-- `createFolder` only ever touches the created-folder list, the history
and the dirty flag. -/
theorem createFolder_preserves (meta : OpMeta) (path : List String)
    (s : CleanupWorkflowState) :
    (createFolder meta path s).2.workingBookmarks = s.workingBookmarks ∧
    (createFolder meta path s).2.pendingMoves = s.pendingMoves ∧
    (createFolder meta path s).2.db = s.db ∧
    (createFolder meta path s).2.deletedBookmarkIds =
      s.deletedBookmarkIds ∧
    (createFolder meta path s).2.selectedBookmarkIds =
      s.selectedBookmarkIds := by
  unfold createFolder
  split
  · exact ⟨rfl, rfl, rfl, rfl, rfl⟩
  · split
    · exact ⟨rfl, rfl, rfl, rfl, rfl⟩
    · split
      · exact ⟨rfl, rfl, rfl, rfl, rfl⟩
      · exact ⟨rfl, rfl, rfl, rfl, rfl⟩

/-- `undoStep` always keeps the store contents returned by
`executeUndo`. -/
theorem undoStep_db (io : Bool) (op : CleanupOperation)
    (l : List CleanupOperation) (s : CleanupWorkflowState) :
    (undoStep io op l s).db =
      (executeUndo io op s.workingBookmarks s.db).2 := by
  unfold undoStep
  split
  · split <;> (split <;> rfl)
  · rfl

/-- A recorded history always ends with the recorded operation. -/
theorem recordOperation_eq_concat (op : CleanupOperation)
    (history : List CleanupOperation) :
    ∃ l, recordOperation op history = l ++ [op] := by
  unfold recordOperation
  by_cases hlen : MAX_HISTORY_SIZE < (history ++ [op]).length
  · refine ⟨history.drop ((history ++ [op]).length - MAX_HISTORY_SIZE), ?_⟩
    simp only [hlen, if_true]
    refine List.drop_append_of_le_length ?_
    simp only [List.length_append, List.length_singleton,
      MAX_HISTORY_SIZE] at hlen ⊢
    omega
  · refine ⟨history, ?_⟩
    simp only [hlen, if_false]

/-- `find?` by id misses on reverted moves built from ids not containing
the probe. -/
theorem find?_map_revertedMove_none (p : String → List String)
    (ids : List String) (x : String) (hx : x ∉ ids) :
    ((ids.map (fun id =>
        ({ bookmarkId := id, path := p id } : RevertedMove))).find?
      (fun m => m.bookmarkId == x)) = none := by
  induction ids with
  | nil => rfl
  | cons a t ih =>
    have hax : a ≠ x := fun he => hx (he ▸ List.mem_cons_self a t)
    have hfalse :
        ((({ bookmarkId := a, path := p a } : RevertedMove).bookmarkId == x))
          = false := by simp [hax]
    rw [List.map_cons, List.find?_cons, hfalse]
    exact ih (fun hmem => hx (List.mem_cons_of_mem a hmem))

/-- A map that fixes every element of a list is the identity on it. -/
theorem map_eq_self_of_forall {α : Type} (l : List α) (f : α → α)
    (h : ∀ a ∈ l, f a = a) : l.map f = l := by
  induction l with
  | nil => rfl
  | cons a t ih =>
    rw [List.map_cons, h a (List.mem_cons_self a t),
      ih (fun b hb => h b (List.mem_cons_of_mem a hb))]

/-- `pathOfId` of a member record, with id-unique records. -/
theorem pathOfId_eq (l : List Bookmark)
    (hnd : (l.map (fun b => b.id)).Nodup) (b : Bookmark) (hb : b ∈ l) :
    pathOfId l b.id = b.path := by
  unfold pathOfId
  rw [find?_eq_self_of_nodup l hnd b hb]
  rfl

/-- `List.contains` agrees with membership on strings. -/
theorem contains_iff_mem (l : List String) (x : String) :
    l.contains x = true ↔ x ∈ l := by simp

/-- On success `createFolder` appends the path to the created-folder list;
on failure it returns the state unchanged. -/
theorem createFolder_success_effects (meta : OpMeta) (path : List String)
    (s : CleanupWorkflowState) :
    ((createFolder meta path s).1 = true →
      (createFolder meta path s).2.createdFolders =
        s.createdFolders ++ [path]) ∧
    ((createFolder meta path s).1 = false →
      (createFolder meta path s).2 = s) := by
  unfold createFolder
  split
  · exact ⟨fun hh => Bool.noConfusion hh, fun _ => rfl⟩
  · split
    · exact ⟨fun hh => Bool.noConfusion hh, fun _ => rfl⟩
    · split
      · exact ⟨fun hh => Bool.noConfusion hh, fun _ => rfl⟩
      · exact ⟨fun _ => rfl, fun hh => Bool.noConfusion hh⟩

/-! ### Claims -/

/-- C10: for every selection set and record id, `toggleBookmarkSelection`
flips the membership of exactly the toggled id (it is in the result iff it
was not selected; every other id keeps its membership), and toggling twice
in succession returns the state unchanged (involution). -/
theorem claim_C10_toggle_involution (x : String) (s : CleanupWorkflowState) :
    ((x ∈ (toggleBookmarkSelection x s).selectedBookmarkIds) ↔
      x ∉ s.selectedBookmarkIds) ∧
    (∀ y, y ≠ x →
      ((y ∈ (toggleBookmarkSelection x s).selectedBookmarkIds) ↔
        y ∈ s.selectedBookmarkIds)) ∧
    toggleBookmarkSelection x (toggleBookmarkSelection x s) = s := by
  unfold toggleBookmarkSelection
  by_cases h : x ∈ s.selectedBookmarkIds
  · simp only [h, if_true]
    refine ⟨by simp [h], fun y hy => by simp [Finset.mem_erase, hy], ?_⟩
    have hx : x ∉ s.selectedBookmarkIds.erase x := by simp
    simp only [hx, if_false]
    rw [Finset.insert_erase h]
  · simp only [h, if_false]
    refine ⟨by simp [h], fun y hy => by simp [Finset.mem_insert, hy], ?_⟩
    have hx : x ∈ insert x s.selectedBookmarkIds := Finset.mem_insert_self _ _
    simp only [hx, if_true]
    rw [Finset.erase_insert h]

/-- Witness for C10 at a concrete state, discharging the `y ≠ x`
hypothesis of the second conjunct. -/
theorem claim_C10_toggle_involution_witness :
    (("b" : String) ≠ "a") ∧
    (("b" ∈ (toggleBookmarkSelection "a"
        { emptyState with
          selectedBookmarkIds := {"b"} }).selectedBookmarkIds) ↔
      "b" ∈ ({ emptyState with selectedBookmarkIds := {"b"} } :
        CleanupWorkflowState).selectedBookmarkIds) :=
  ⟨by decide,
    (claim_C10_toggle_involution "a"
      { emptyState with selectedBookmarkIds := {"b"} }).2.1 "b" (by decide)⟩

/-- C9: the operation history is a most-recent-10 window: recording always
leaves at most `MAX_HISTORY_SIZE` entries and equals the tail window of the
appended list, restoring a persisted history also truncates to the last 10,
and appending an 11th entry to a full history drops the oldest first. -/
theorem claim_C9_history_window (history : List CleanupOperation)
    (op : CleanupOperation) (ops : List CleanupOperation) :
    (recordOperation op history).length ≤ MAX_HISTORY_SIZE ∧
    recordOperation op history =
      (history ++ [op]).drop ((history ++ [op]).length - MAX_HISTORY_SIZE) ∧
    (restoreHistory ops).length ≤ MAX_HISTORY_SIZE ∧
    (history.length = MAX_HISTORY_SIZE →
      recordOperation op history = history.drop 1 ++ [op]) := by
  refine ⟨?_, ?_, ?_, ?_⟩
  · unfold recordOperation
    by_cases h : MAX_HISTORY_SIZE < (history ++ [op]).length
    · simp only [h, if_true, List.length_drop]
      omega
    · simp only [h, if_false]
      omega
  · unfold recordOperation
    by_cases h : MAX_HISTORY_SIZE < (history ++ [op]).length
    · simp only [h, if_true]
    · simp only [h, if_false]
      have : (history ++ [op]).length - MAX_HISTORY_SIZE = 0 := by omega
      rw [this, List.drop_zero]
  · unfold restoreHistory
    simp only [List.length_drop]
    omega
  · intro hfull
    unfold recordOperation
    have hlen : MAX_HISTORY_SIZE < (history ++ [op]).length := by
      simp [hfull]
    simp only [hlen, if_true]
    have : (history ++ [op]).length - MAX_HISTORY_SIZE = 1 := by
      simp [hfull]
    rw [this, List.drop_append_of_le_length (by simp [hfull, MAX_HISTORY_SIZE])]

/-- Witness for C9 on a full 10-entry history, discharging the
`history.length = MAX_HISTORY_SIZE` hypothesis. -/
theorem claim_C9_history_window_witness :
    ((List.replicate 10 cfOp).length = MAX_HISTORY_SIZE) ∧
    recordOperation cfOp (List.replicate 10 cfOp) =
      (List.replicate 10 cfOp).drop 1 ++ [cfOp] :=
  ⟨by decide,
    ((claim_C9_history_window (List.replicate 10 cfOp) cfOp []).2.2.2
      (by decide))⟩

/-- C1: `getOrCompute` returns the stored value tagged as cached, without
invoking the compute callback or touching the table, exactly when
`forceRefresh` is unset and the stored row for the key is unexpired
(`now < expiresAt`) with a hash equal to the supplied one; in every other
situation (expired row, hash mismatch even with time remaining, missing
row, or `forceRefresh`) the compute callback runs, its result is stored
under the key with the supplied hash and the fresh expiry `now + ttlMs`,
and is returned tagged as non-cached. -/
theorem claim_C1_getOrCompute (V : Type) (now : Nat) (key : String)
    (type : CacheType) (hash : String) (v : V) (ttl : Nat) (force : Bool)
    (table : List (AICacheEntry V)) :
    (∀ e, force = false → getCacheRow V table key = some e →
      now < e.expiresAt → e.bookmarkHash = hash →
      getOrCompute V now key type hash v ttl force table =
        { value := e.data, fromCache := true, computeInvoked := false,
          table := table }) ∧
    ((force = true ∨
        ∀ e, getCacheRow V table key = some e →
          e.expiresAt ≤ now ∨ e.bookmarkHash ≠ hash) →
      getOrCompute V now key type hash v ttl force table =
        { value := v, fromCache := false, computeInvoked := true,
          table := cacheSet V now key v type hash ttl table } ∧
      getCacheRow V
          (getOrCompute V now key type hash v ttl force table).table key =
        some { id := key, type := type, data := v, bookmarkHash := hash,
               createdAt := now, expiresAt := now + ttl }) := by
  constructor
  · intro e hf he hexp hh
    subst hf
    unfold getOrCompute getAICache
    rw [he]
    simp [hexp, hh]
  · intro h
    have hmiss : getOrCompute V now key type hash v ttl force table =
        { value := v, fromCache := false, computeInvoked := true,
          table := cacheSet V now key v type hash ttl table } := by
      unfold getOrCompute getAICache
      cases force with
      | true => simp
      | false =>
        rcases h with h | h
        · cases h
        · cases hrow : getCacheRow V table key with
          | none => simp
          | some e =>
            rcases h e hrow with hexp | hhash
            · have : ¬ (now < e.expiresAt) := by omega
              simp [this]
            · by_cases hlt : now < e.expiresAt
              · have : (e.bookmarkHash == hash) = false := by
                  simp [hhash]
                simp [hlt, this]
              · simp [hlt]
    refine ⟨hmiss, ?_⟩
    rw [hmiss]
    exact getCacheRow_putCacheRow V table
      { id := key, type := type, data := v, bookmarkHash := hash,
        createdAt := now, expiresAt := now + ttl }

/-- Witness for C1: a concrete hit (unexpired entry, matching hash) and a
concrete forced miss over `V = Nat`. -/
theorem claim_C1_getOrCompute_witness :
    (getOrCompute Nat 5 "k" CacheType.category "h1" 42 100 false
        [{ id := "k", type := CacheType.category, data := 7,
           bookmarkHash := "h1", createdAt := 0, expiresAt := 10 }] =
      { value := 7, fromCache := true, computeInvoked := false,
        table := [{ id := "k", type := CacheType.category, data := 7,
                    bookmarkHash := "h1", createdAt := 0,
                    expiresAt := 10 }] }) :=
  (claim_C1_getOrCompute Nat 5 "k" CacheType.category "h1" 42 100 false
      [{ id := "k", type := CacheType.category, data := 7,
         bookmarkHash := "h1", createdAt := 0, expiresAt := 10 }]).1
    { id := "k", type := CacheType.category, data := 7,
      bookmarkHash := "h1", createdAt := 0, expiresAt := 10 }
    rfl (by decide) (by decide) rfl

/-- C8: `createFolder` fails, returning `false` with the state (in
particular the created-folder list and the operation history) unchanged,
exactly when the path is empty, a folder with the same name already exists
case-insensitively at the same parent level among current record paths, or
the exact path was already created this session; on success the path is
appended to the created-folder list and an invertible operation is logged.
The duplicate-name test is characterised in terms of the record paths. -/
theorem claim_C8_createFolder (meta : OpMeta) (path : List String)
    (s : CleanupWorkflowState) :
    ((createFolder meta path s).1 = false ↔
      (path = [] ∨
        folderNameExistsAtLevel s.workingBookmarks path.dropLast
          (path.getLastD "") = true ∨
        path ∈ s.createdFolders)) ∧
    ((createFolder meta path s).1 = false →
      (createFolder meta path s).2 = s) ∧
    ((createFolder meta path s).1 = true →
      (createFolder meta path s).2.createdFolders =
        s.createdFolders ++ [path] ∧
      (createFolder meta path s).2.operationHistory =
        recordOperation (createFolderOperation meta path)
          s.operationHistory) ∧
    (folderNameExistsAtLevel s.workingBookmarks path.dropLast
        (path.getLastD "") = true ↔
      ∃ b ∈ s.workingBookmarks,
        path.dropLast.length < b.path.length ∧
        isUnderParent path.dropLast b.path = true ∧
        ∃ seg, b.path.get? path.dropLast.length = some seg ∧
          seg ≠ "" ∧ seg.toLower = (path.getLastD "").toLower) := by
  have hchar : ∀ (bs : List Bookmark) (parent : List String) (name : String),
      folderNameExistsAtLevel bs parent name = true ↔
        ∃ b ∈ bs, parent.length < b.path.length ∧
          isUnderParent parent b.path = true ∧
          ∃ seg, b.path.get? parent.length = some seg ∧
            seg ≠ "" ∧ seg.toLower = name.toLower := by
    intro bs parent name
    unfold folderNameExistsAtLevel
    rw [List.any_eq_true]
    constructor
    · rintro ⟨b, hb, hcond⟩
      simp only [Bool.and_eq_true, decide_eq_true_eq] at hcond
      rcases hcond with ⟨⟨hlt, hunder⟩, hmatch⟩
      cases hseg : b.path.get? parent.length with
      | none => rw [hseg] at hmatch; cases hmatch
      | some seg =>
        rw [hseg] at hmatch
        simp only [Bool.and_eq_true, Bool.not_eq_true', beq_eq_false_iff_ne,
          ne_eq, beq_iff_eq] at hmatch
        exact ⟨b, hb, hlt, hunder, seg, hseg, hmatch.1, hmatch.2⟩
    · rintro ⟨b, hb, hlt, hunder, seg, hseg, hne, hlow⟩
      refine ⟨b, hb, ?_⟩
      simp only [Bool.and_eq_true, decide_eq_true_eq]
      refine ⟨⟨hlt, hunder⟩, ?_⟩
      rw [hseg]
      simp [hne, hlow]
  have hmain : ((createFolder meta path s).1 = false ↔
      (path = [] ∨
        folderNameExistsAtLevel s.workingBookmarks path.dropLast
          (path.getLastD "") = true ∨
        path ∈ s.createdFolders)) ∧
      ((createFolder meta path s).1 = false →
        (createFolder meta path s).2 = s) ∧
      ((createFolder meta path s).1 = true →
        (createFolder meta path s).2.createdFolders =
          s.createdFolders ++ [path] ∧
        (createFolder meta path s).2.operationHistory =
          recordOperation (createFolderOperation meta path)
            s.operationHistory) := by
    have hanymem : (s.createdFolders.any (fun f => f == path) = true) ↔
        path ∈ s.createdFolders := by
      rw [List.any_eq_true]
      constructor
      · rintro ⟨f, hf, hfe⟩
        rw [beq_iff_eq] at hfe
        exact hfe ▸ hf
      · intro hmem
        exact ⟨path, hmem, beq_self_eq_true _⟩
    unfold createFolder
    split
    · rename_i h0
      have hpnil : path = [] := List.length_eq_zero.mp h0
      exact ⟨Iff.intro (fun _ => Or.inl hpnil) (fun _ => rfl),
        fun _ => rfl, fun hh => Bool.noConfusion hh⟩
    · rename_i h0
      have hne : ¬ path = [] := fun hnil => h0 (by simp [hnil])
      split
      · rename_i h1
        exact ⟨Iff.intro (fun _ => Or.inr (Or.inl h1)) (fun _ => rfl),
          fun _ => rfl, fun hh => Bool.noConfusion hh⟩
      · rename_i h1
        split
        · rename_i h2
          exact ⟨Iff.intro
              (fun _ => Or.inr (Or.inr (hanymem.mp h2)))
              (fun _ => rfl),
            fun _ => rfl, fun hh => Bool.noConfusion hh⟩
        · rename_i h2
          have hnmem : path ∉ s.createdFolders := fun hmem =>
            h2 (hanymem.mpr hmem)
          refine ⟨Iff.intro (fun hh => Bool.noConfusion hh) ?_,
            fun hh => Bool.noConfusion hh, fun _ => ⟨rfl, rfl⟩⟩
          rintro (h | h | h)
          · exact absurd h hne
          · exact absurd h h1
          · exact absurd h hnmem
  exact ⟨hmain.1, hmain.2.1, hmain.2.2, hchar _ _ _⟩

/-- Witness for C8: a concrete successful creation (discharging the
success hypothesis) and a concrete case-insensitive duplicate rejection
(discharging the failure hypothesis) at the same state. -/
theorem claim_C8_createFolder_witness :
    ((createFolder meta1 ["Dev", "Tools"]
        { emptyState with
          workingBookmarks := [bk "a" ["dev"]] }).1 = true →
      ((createFolder meta1 ["Dev", "Tools"]
          { emptyState with
            workingBookmarks := [bk "a" ["dev"]] }).2.createdFolders =
        [["Dev", "Tools"]] ∧
      (createFolder meta1 ["Dev", "Tools"]
          { emptyState with
            workingBookmarks := [bk "a" ["dev"]] }).2.operationHistory =
        recordOperation (createFolderOperation meta1 ["Dev", "Tools"])
          [])) ∧
    ((createFolder meta1 ["DEV"]
        { emptyState with
          workingBookmarks := [bk "a" ["dev"]] }).1 = false →
      (createFolder meta1 ["DEV"]
          { emptyState with
            workingBookmarks := [bk "a" ["dev"]] }).2 =
        { emptyState with workingBookmarks := [bk "a" ["dev"]] }) :=
  ⟨(claim_C8_createFolder meta1 ["Dev", "Tools"]
      { emptyState with workingBookmarks := [bk "a" ["dev"]] }).2.2.1,
   (claim_C8_createFolder meta1 ["DEV"]
      { emptyState with workingBookmarks := [bk "a" ["dev"]] }).2.1⟩

/-- C3 counterexample: in `c3State` the only record is soft-deleted, hence
the active set is empty, yet `selectByRecommendation` still selects its
non-rejected delete recommendation — the code never consults the
soft-deleted set, contradicting the claim that only active records are
selected. -/
theorem claim_C3_counterexample :
    ("a" ∈ (selectByRecommendation RecommendationType.delete
        c3State).selectedBookmarkIds) ∧
    getActiveBookmarks c3State = [] := by decide

/-- C3 (amended): `selectByRecommendation` replaces the selection with
exactly the bookmark ids of the non-rejected recommendation entries whose
recommendation equals the requested type — regardless of whether the
corresponding record is active (soft-deleted records are not filtered
out). -/
theorem claim_C3_selectByRecommendation (type : RecommendationType)
    (s : CleanupWorkflowState) (y : String) :
    ((y ∈ (selectByRecommendation type s).selectedBookmarkIds) ↔
      ∃ r ∈ s.aiRecommendations,
        r.bookmarkId = y ∧ r.recommendation = type ∧ r.rejected = false) ∧
    (selectByRecommendation type s).workingBookmarks =
      s.workingBookmarks ∧
    (selectByRecommendation type s).deletedBookmarkIds =
      s.deletedBookmarkIds := by
  refine ⟨?_, rfl, rfl⟩
  show (y ∈ ((s.aiRecommendations.filter (fun r =>
      r.recommendation == type && !r.rejected)).map
        (fun r => r.bookmarkId)).toFinset) ↔ _
  simp only [List.mem_toFinset, List.mem_map, List.mem_filter]
  constructor
  · rintro ⟨r, ⟨hr, hcond⟩, rfl⟩
    simp only [Bool.and_eq_true, beq_iff_eq, Bool.not_eq_true'] at hcond
    exact ⟨r, hr, rfl, hcond.1, hcond.2⟩
  · rintro ⟨r, hr, rfl, htype, hrej⟩
    refine ⟨r, ⟨hr, ?_⟩, rfl⟩
    simp [htype, hrej]

/-- Witness for C3 (amended) at the counterexample state. -/
theorem claim_C3_selectByRecommendation_witness :
    (("a" ∈ (selectByRecommendation RecommendationType.delete
        c3State).selectedBookmarkIds) ↔
      ∃ r ∈ c3State.aiRecommendations,
        r.bookmarkId = "a" ∧
        r.recommendation = RecommendationType.delete ∧
        r.rejected = false) ∧
    (selectByRecommendation RecommendationType.delete
        c3State).workingBookmarks = c3State.workingBookmarks ∧
    (selectByRecommendation RecommendationType.delete
        c3State).deletedBookmarkIds = c3State.deletedBookmarkIds :=
  claim_C3_selectByRecommendation RecommendationType.delete c3State "a"

/-- C2 counterexample: in `c2State` the active set is empty (record `"a"`
is soft-deleted and `"b"` does not exist), yet accepting `sugF` rewrites
the soft-deleted record's path and appends a pending-move entry for both
suggested ids — contradicting the claim that inactive or missing ids are
skipped with no path update and no pending-move entry. -/
theorem claim_C2_counterexample :
    getActiveBookmarks c2State = [] ∧
    c2State.pendingMoves = [] ∧
    (acceptFolderSuggestion meta1 meta2 sugF c2State).pendingMoves =
      [{ bookmarkId := "a", fromPath := [], toPath := ["F"] },
       { bookmarkId := "b", fromPath := [], toPath := ["F"] }] ∧
    (acceptFolderSuggestion meta1 meta2 sugF c2State).workingBookmarks =
      [{ id := "a", title := "a", url := "a", addDate := none,
         path := ["F"], sourceFile := "export.html" }] ∧
    (acceptFolderSuggestion meta1 meta2 sugF c2State).createdFolders =
      [["F"]] := by decide

/-- C2 (amended): accepting a folder suggestion always runs the folder
creation first — on success the suggested path is appended to the
created-folder list, and a creation rejection is ignored (the created
list stays as it was and the acceptance still proceeds); when the
suggested id list is empty nothing further happens, and when it is
non-empty one move of all suggested ids is issued: every working record
whose id is suggested — soft-deleted or not — has its path rewritten to
the suggestion path, and one pending-move entry per suggested id is
appended, an id with no working record included (with `fromPath = []`). -/
theorem claim_C2_acceptFolderSuggestion (createMeta moveMeta : OpMeta)
    (sug : SuggestedFolder) (s : CleanupWorkflowState) :
    ((acceptFolderSuggestion createMeta moveMeta sug s).createdFolders =
      (createFolder createMeta sug.path s).2.createdFolders) ∧
    ((createFolder createMeta sug.path s).1 = true →
      (acceptFolderSuggestion createMeta moveMeta sug s).createdFolders =
        s.createdFolders ++ [sug.path]) ∧
    ((createFolder createMeta sug.path s).1 = false →
      (acceptFolderSuggestion createMeta moveMeta sug s).createdFolders =
        s.createdFolders) ∧
    (sug.suggestedBookmarkIds = [] →
      acceptFolderSuggestion createMeta moveMeta sug s =
        (createFolder createMeta sug.path s).2) ∧
    (sug.suggestedBookmarkIds ≠ [] →
      (acceptFolderSuggestion createMeta moveMeta sug s).workingBookmarks =
        s.workingBookmarks.map (fun b =>
          if sug.suggestedBookmarkIds.contains b.id then
            { b with path := sug.path }
          else b) ∧
      (acceptFolderSuggestion createMeta moveMeta sug s).pendingMoves =
        s.pendingMoves ++
          buildMoves s.workingBookmarks sug.suggestedBookmarkIds sug.path ∧
      (∀ id ∈ sug.suggestedBookmarkIds,
        s.workingBookmarks.find? (fun b => b.id == id) = none →
        ({ bookmarkId := id, fromPath := [], toPath := sug.path } :
            BookmarkMove) ∈
          (acceptFolderSuggestion createMeta moveMeta sug s).pendingMoves)) := by
  have hcf : (acceptFolderSuggestion createMeta moveMeta sug
        s).createdFolders =
      (createFolder createMeta sug.path s).2.createdFolders := by
    unfold acceptFolderSuggestion
    split
    · rfl
    · rfl
  have hsf := createFolder_success_effects createMeta sug.path s
  refine ⟨hcf, ?_, ?_, ?_, ?_⟩
  · intro hsucc
    rw [hcf, hsf.1 hsucc]
  · intro hfail
    rw [hcf, hsf.2 hfail]
  · intro hempty
    unfold acceptFolderSuggestion
    rw [hempty]
    rfl
  · intro h
    have hpres := createFolder_preserves createMeta sug.path s
    obtain ⟨hw, hp, _, _, _⟩ := hpres
    have hlen : 0 < sug.suggestedBookmarkIds.length := List.length_pos.mpr h
    unfold acceptFolderSuggestion
    rw [if_pos hlen]
    have hfields := moveBookmarksToFolder_fields moveMeta
      sug.suggestedBookmarkIds sug.path
      ((createFolder createMeta sug.path s).2)
    obtain ⟨f1, f2, _, _, _, _⟩ := hfields
    refine ⟨?_, ?_, ?_⟩
    · rw [f1, hw]
    · rw [f2, hp, hw]
    · intro id hid hnone
      rw [f2, hp, hw]
      refine List.mem_append_right _ ?_
      unfold buildMoves
      refine List.mem_map.mpr ⟨id, hid, ?_⟩
      unfold pathOfId
      rw [hnone]
      rfl

/-- Witness for C2 (amended) at the counterexample state, discharging the
creation-success and non-empty-suggestion hypotheses. -/
theorem claim_C2_acceptFolderSuggestion_witness :
    (createFolder meta1 sugF.path c2State).1 = true ∧
    (acceptFolderSuggestion meta1 meta2 sugF c2State).createdFolders =
      c2State.createdFolders ++ [sugF.path] ∧
    sugF.suggestedBookmarkIds ≠ [] ∧
    (acceptFolderSuggestion meta1 meta2 sugF c2State).workingBookmarks =
      c2State.workingBookmarks.map (fun b =>
        if sugF.suggestedBookmarkIds.contains b.id then
          { b with path := sugF.path }
        else b) := by
  have h := claim_C2_acceptFolderSuggestion meta1 meta2 sugF c2State
  exact ⟨by decide, h.2.1 (by decide), by decide, (h.2.2.2.2 (by decide)).1⟩

/-- C4 counterexample: in `c4State` the store holds record `"a"` which is
selected; after `deleteSelected` the store is untouched (the record is
still there) and the deletion is only buffered in the session soft-delete
set — contradicting the claim that explicit deletes are persisted to the
store at the time of the call. -/
theorem claim_C4_counterexample :
    (deleteSelected meta1 c4State).db = c4State.db ∧
    c4State.db = [bk "a" []] ∧
    ("a" ∈ (deleteSelected meta1 c4State).deletedBookmarkIds) := by decide

/-- C4 (amended): `deleteSelected` and `moveBookmarksToFolder` never write
to the external record store — deletions and path rewrites are buffered in
session-local state (the soft-delete set, the working paths and the
pending-move list); it is `undo` that issues the store writes, restoring
the delete snapshot (`restoreBookmarks`) or bulk-rewriting paths back
(`bulkUpdateBookmarkPaths`). -/
theorem claim_C4_buffered_persistence (meta meta' : OpMeta)
    (ids : List String) (P : List String) (s : CleanupWorkflowState) :
    (deleteSelected meta s).db = s.db ∧
    (moveBookmarksToFolder meta' ids P s).db = s.db ∧
    (∀ l op bs, s.operationHistory = l ++ [op] →
      op.data = OperationData.delete bs →
      (undo true s).db = restoreBookmarksDb bs s.db) ∧
    (∀ l op ms, s.operationHistory = l ++ [op] →
      op.data = OperationData.move ms →
      (undo true s).db =
        bulkUpdateBookmarkPathsDb
          (ms.map (fun m => (m.bookmarkId, m.fromPath))) s.db) := by
  refine ⟨?_, (moveBookmarksToFolder_fields meta' ids P s).2.2.2.2.1,
    ?_, ?_⟩
  · unfold deleteSelected
    split
    · rfl
    · rfl
  · intro l op bs hh hdata
    rw [undo_concat true s l op hh, undoStep_db]
    obtain ⟨oid, ots, od⟩ := op
    replace hdata : od = OperationData.delete bs := hdata
    subst hdata
    rfl
  · intro l op ms hh hdata
    rw [undo_concat true s l op hh, undoStep_db]
    obtain ⟨oid, ots, od⟩ := op
    replace hdata : od = OperationData.move ms := hdata
    subst hdata
    have hstep :
        (executeUndo true
            { opId := oid, timestamp := ots, data := OperationData.move ms }
            s.workingBookmarks s.db).2 =
          bulkUpdateBookmarkPathsDb
            ((ms.map (fun m =>
              ({ bookmarkId := m.bookmarkId, fromPath := m.toPath,
                 toPath := m.fromPath } : BookmarkMove))).map
              (fun m => (m.bookmarkId, m.toPath))) s.db := rfl
    rw [hstep, List.map_map]
    rfl

/-- Witness for C4 (amended) at a concrete state whose history ends with a
delete operation. -/
theorem claim_C4_buffered_persistence_witness :
    c5State.operationHistory = [] ++ [delOpA] ∧
    delOpA.data = OperationData.delete [bk "a" []] ∧
    (undo true c5State).db = restoreBookmarksDb [bk "a" []] c5State.db := by
  have h := (claim_C4_buffered_persistence meta1 meta2 [] [] c5State).2.2.1
  exact ⟨by decide, rfl, h [] delOpA [bk "a" []] (by decide) rfl⟩

/-- C5 counterexample: in `c5State` the history holds one delete
operation; when its store restore fails, `undo` still removes the entry
from the history (it was popped before the write and is not put back) —
contradicting the claim that the in-memory session state, including the
operation-history entry being undone, is left unchanged. -/
theorem claim_C5_counterexample :
    (undo false c5State).operationHistory = [] ∧
    c5State.operationHistory = [delOpA] ∧
    (undo false c5State).deletedBookmarkIds =
      c5State.deletedBookmarkIds := by decide

/-- C5 (amended): when the store write behind an undo of a delete or move
fails, the soft-deleted set, the record paths, the pending-move list, the
created-folder list and the store itself are unchanged — but the history
entry being undone has been permanently removed (and the code surfaces no
error to the caller: `undo` discards the failure result). -/
theorem claim_C5_store_failure (s : CleanupWorkflowState)
    (l : List CleanupOperation) (op : CleanupOperation)
    (hh : s.operationHistory = l ++ [op])
    (hkind : (∃ bs, op.data = OperationData.delete bs) ∨
      (∃ ms, op.data = OperationData.move ms)) :
    (undo false s).workingBookmarks = s.workingBookmarks ∧
    (undo false s).deletedBookmarkIds = s.deletedBookmarkIds ∧
    (undo false s).pendingMoves = s.pendingMoves ∧
    (undo false s).createdFolders = s.createdFolders ∧
    (undo false s).db = s.db ∧
    (undo false s).operationHistory = l := by
  rw [undo_concat false s l op hh]
  obtain ⟨oid, ots, od⟩ := op
  rcases hkind with ⟨bs, hd⟩ | ⟨ms, hd⟩
  · replace hd : od = OperationData.delete bs := hd
    subst hd
    exact ⟨rfl, rfl, rfl, rfl, rfl, rfl⟩
  · replace hd : od = OperationData.move ms := hd
    subst hd
    exact ⟨rfl, rfl, rfl, rfl, rfl, rfl⟩

/-- Witness for C5 (amended) at the counterexample state. -/
theorem claim_C5_store_failure_witness :
    c5State.operationHistory = [] ++ [delOpA] ∧
    (undo false c5State).operationHistory = [] ∧
    (undo false c5State).pendingMoves = c5State.pendingMoves := by
  have h := claim_C5_store_failure c5State [] delOpA (by decide)
    (Or.inl ⟨[bk "a" []], rfl⟩)
  exact ⟨by decide, h.2.2.2.2.2, h.2.2.1⟩

/-- C7: with a non-empty selection of existing records, `deleteSelected`
removes the selected ids from the active set and logs an invertible delete
entry carrying the full snapshot of the deleted records; undoing that
entry (with the store restore succeeding) puts those ids back into the
active set. -/
theorem claim_C7_delete_roundtrip (meta : OpMeta) (s : CleanupWorkflowState)
    (hne : s.selectedBookmarkIds ≠ ∅)
    (hsub : ∀ id ∈ s.selectedBookmarkIds,
      id ∈ s.workingBookmarks.map (fun b => b.id)) :
    (∀ b ∈ getActiveBookmarks (deleteSelected meta s),
      b.id ∉ s.selectedBookmarkIds) ∧
    ((deleteSelected meta s).operationHistory.getLast? =
      some { opId := meta.id, timestamp := meta.timestamp,
             data := OperationData.delete (s.workingBookmarks.filter
               (fun b => b.id ∈ s.selectedBookmarkIds)) }) ∧
    (∀ id ∈ s.selectedBookmarkIds,
      ∃ b ∈ getActiveBookmarks (undo true (deleteSelected meta s)),
        b.id = id) := by
  have hcard : ¬ s.selectedBookmarkIds.card = 0 := fun h0 =>
    hne (Finset.card_eq_zero.mp h0)
  have hdel : deleteSelected meta s =
      { s with
        operationHistory := recordOperation
          (createDeleteOperation meta (s.workingBookmarks.filter
            (fun b => b.id ∈ s.selectedBookmarkIds)))
          s.operationHistory,
        deletedBookmarkIds := s.deletedBookmarkIds ∪ s.selectedBookmarkIds,
        selectedBookmarkIds := ∅,
        hasUnsavedChanges := true } := by
    unfold deleteSelected
    rw [if_neg hcard]
  refine ⟨?_, ?_, ?_⟩
  · intro b hb
    rw [hdel] at hb
    unfold getActiveBookmarks at hb
    rcases List.mem_filter.mp hb with ⟨hbw, hbdec⟩
    intro hmem
    simp only [Bool.not_eq_true', decide_eq_false_iff_not] at hbdec
    exact hbdec (Finset.mem_union_right _ hmem)
  · rw [hdel]
    exact recordOperation_getLast? _ _
  · intro id hid
    obtain ⟨l, hl⟩ := recordOperation_eq_concat
      (createDeleteOperation meta (s.workingBookmarks.filter
        (fun b => b.id ∈ s.selectedBookmarkIds)))
      s.operationHistory
    have hist : (deleteSelected meta s).operationHistory =
        l ++ [createDeleteOperation meta (s.workingBookmarks.filter
          (fun b => b.id ∈ s.selectedBookmarkIds))] := by
      rw [hdel]
      exact hl
    rw [undo_concat true (deleteSelected meta s) l _ hist]
    have hundo : undoStep true
        (createDeleteOperation meta (s.workingBookmarks.filter
          (fun b => b.id ∈ s.selectedBookmarkIds)))
        l (deleteSelected meta s) =
        { s with
          operationHistory := l,
          db := restoreBookmarksDb (s.workingBookmarks.filter
            (fun b => b.id ∈ s.selectedBookmarkIds)) s.db,
          deletedBookmarkIds := (s.workingBookmarks.filter
              (fun b => b.id ∈ s.selectedBookmarkIds)).foldl
            (fun d b => d.erase b.id)
            (s.deletedBookmarkIds ∪ s.selectedBookmarkIds),
          selectedBookmarkIds := ∅,
          hasUnsavedChanges := true } := by
      simp only [hdel]
      rfl
    rw [hundo]
    obtain ⟨b0, hb0, hb0id⟩ := List.mem_map.mp (hsub id hid)
    refine ⟨b0, ?_, hb0id⟩
    unfold getActiveBookmarks
    refine List.mem_filter.mpr ⟨hb0, ?_⟩
    simp only [Bool.not_eq_true', decide_eq_false_iff_not]
    rw [mem_foldl_erase]
    rintro ⟨-, habs⟩
    apply habs
    refine List.mem_map.mpr ⟨b0, ?_, rfl⟩
    refine List.mem_filter.mpr ⟨hb0, ?_⟩
    rw [hb0id]
    simp [hid]

/-- Witness for C7 at a concrete one-record state, discharging the
non-empty-selection and existing-ids hypotheses. -/
theorem claim_C7_delete_roundtrip_witness :
    c7State.selectedBookmarkIds ≠ ∅ ∧
    (∀ id ∈ c7State.selectedBookmarkIds,
      id ∈ c7State.workingBookmarks.map (fun b => b.id)) ∧
    (∀ id ∈ c7State.selectedBookmarkIds,
      ∃ b ∈ getActiveBookmarks (undo true (deleteSelected meta1 c7State)),
        b.id = id) := by
  have h := claim_C7_delete_roundtrip meta1 c7State (by decide) (by decide)
  exact ⟨by decide, by decide, h.2.2⟩

/-- C6: moving existing ids to target path `P` rewrites every
matching working record's path to `P`, appends one pending-move descriptor
per id recording its prior path and `P`, clears the selection, and logs a
move operation whose payload records those prior/new path pairs; an
immediately subsequent `undo` (store write succeeding) restores every
record to its pre-move path and drops the pending-move entries for those
ids. -/
theorem claim_C6_move_roundtrip (meta : OpMeta) (ids : List String)
    (P : List String) (s : CleanupWorkflowState)
    (hwnd : (s.workingBookmarks.map (fun b => b.id)).Nodup)
    (hmem : ∀ id ∈ ids, id ∈ s.workingBookmarks.map (fun b => b.id)) :
    (∀ b ∈ (moveBookmarksToFolder meta ids P s).workingBookmarks,
      ids.contains b.id = true → b.path = P) ∧
    ((moveBookmarksToFolder meta ids P s).pendingMoves.length =
      s.pendingMoves.length + ids.length) ∧
    (((moveBookmarksToFolder meta ids P s).pendingMoves.drop
        s.pendingMoves.length).map (fun m => m.bookmarkId) = ids) ∧
    (∀ m ∈ (moveBookmarksToFolder meta ids P s).pendingMoves.drop
        s.pendingMoves.length,
      m.toPath = P ∧
      ∃ b ∈ s.workingBookmarks,
        b.id = m.bookmarkId ∧ m.fromPath = b.path) ∧
    (moveBookmarksToFolder meta ids P s).selectedBookmarkIds = ∅ ∧
    (∃ op ms,
      (moveBookmarksToFolder meta ids P s).operationHistory.getLast? =
        some op ∧
      op.data = OperationData.move ms ∧
      ms.map (fun m => m.bookmarkId) = ids ∧
      (∀ m ∈ ms, m.toPath = P ∧
        ∃ b ∈ s.workingBookmarks,
          b.id = m.bookmarkId ∧ m.fromPath = b.path)) ∧
    (undo true (moveBookmarksToFolder meta ids P s)).workingBookmarks =
      s.workingBookmarks ∧
    (undo true (moveBookmarksToFolder meta ids P s)).pendingMoves =
      (moveBookmarksToFolder meta ids P s).pendingMoves.filter
        (fun m => !(ids.contains m.bookmarkId)) := by
  obtain ⟨f1, f2, f3, f4, -, -⟩ := moveBookmarksToFolder_fields meta ids P s
  have hdropped : (moveBookmarksToFolder meta ids P s).pendingMoves.drop
      s.pendingMoves.length = buildMoves s.workingBookmarks ids P := by
    rw [f2]
    exact List.drop_left _ _
  have hfrom : ∀ id ∈ ids, ∃ b ∈ s.workingBookmarks,
      b.id = id ∧ pathOfId s.workingBookmarks id = b.path := by
    intro id hid
    obtain ⟨b0, hb0, hb0id⟩ := List.mem_map.mp (hmem id hid)
    refine ⟨b0, hb0, hb0id, ?_⟩
    rw [← hb0id]
    exact pathOfId_eq s.workingBookmarks hwnd b0 hb0
  obtain ⟨l, hl⟩ := recordOperation_eq_concat
    (createMoveOperation meta s.workingBookmarks
      (buildMoves s.workingBookmarks ids P))
    s.operationHistory
  have hist : (moveBookmarksToFolder meta ids P s).operationHistory =
      l ++ [createMoveOperation meta s.workingBookmarks
        (buildMoves s.workingBookmarks ids P)] := by
    rw [f4]
    exact hl
  have hrms : ((buildMoves s.workingBookmarks ids P).map (fun m =>
        ({ bookmarkId := m.bookmarkId,
           bookmark := s.workingBookmarks.find?
             (fun b => b.id == m.bookmarkId),
           fromPath := m.fromPath, toPath := m.toPath } : MoveRecord))).map
      (fun m =>
        ({ bookmarkId := m.bookmarkId, path := m.fromPath } :
          RevertedMove)) =
      ids.map (fun id =>
        ({ bookmarkId := id, path := pathOfId s.workingBookmarks id } :
          RevertedMove)) := by
    unfold buildMoves
    rw [List.map_map, List.map_map]
    rfl
  refine ⟨?_, ?_, ?_, ?_, f3, ?_, ?_, ?_⟩
  · intro b hb hc
    rw [f1] at hb
    obtain ⟨b0, hb0, hbeq⟩ := List.mem_map.mp hb
    by_cases hcb : ids.contains b0.id = true
    · rw [if_pos hcb] at hbeq
      subst hbeq
      rfl
    · rw [if_neg hcb] at hbeq
      subst hbeq
      exact absurd hc hcb
  · rw [f2]
    simp [buildMoves]
  · rw [hdropped]
    unfold buildMoves
    rw [List.map_map]
    exact map_eq_self_of_forall ids _ (fun a _ => rfl)
  · rw [hdropped]
    intro m hm
    unfold buildMoves at hm
    obtain ⟨id, hid, hmeq⟩ := List.mem_map.mp hm
    subst hmeq
    refine ⟨rfl, ?_⟩
    obtain ⟨b0, hb0, hb0id, hpath⟩ := hfrom id hid
    exact ⟨b0, hb0, hb0id, hpath⟩
  · rw [f4]
    refine ⟨createMoveOperation meta s.workingBookmarks
        (buildMoves s.workingBookmarks ids P),
      (buildMoves s.workingBookmarks ids P).map (fun m =>
        ({ bookmarkId := m.bookmarkId,
           bookmark := s.workingBookmarks.find?
             (fun b => b.id == m.bookmarkId),
           fromPath := m.fromPath, toPath := m.toPath } : MoveRecord)),
      recordOperation_getLast? _ _, ?_, ?_, ?_⟩
    · rfl
    · rw [List.map_map]
      unfold buildMoves
      rw [List.map_map]
      exact map_eq_self_of_forall ids _ (fun a _ => rfl)
    · intro m hm
      obtain ⟨mv, hmv, hmeq⟩ := List.mem_map.mp hm
      unfold buildMoves at hmv
      obtain ⟨id, hid, hmveq⟩ := List.mem_map.mp hmv
      subst hmveq
      subst hmeq
      refine ⟨rfl, ?_⟩
      obtain ⟨b0, hb0, hb0id, hpath⟩ := hfrom id hid
      exact ⟨b0, hb0, hb0id, hpath⟩
  · rw [undo_concat true _ l _ hist]
    have hw1 : (undoStep true
        (createMoveOperation meta s.workingBookmarks
          (buildMoves s.workingBookmarks ids P))
        l (moveBookmarksToFolder meta ids P s)).workingBookmarks =
        (moveBookmarksToFolder meta ids P s).workingBookmarks.map (fun b =>
          match (((buildMoves s.workingBookmarks ids P).map (fun m =>
              ({ bookmarkId := m.bookmarkId,
                 bookmark := s.workingBookmarks.find?
                   (fun b2 => b2.id == m.bookmarkId),
                 fromPath := m.fromPath,
                 toPath := m.toPath } : MoveRecord))).map
            (fun m =>
              ({ bookmarkId := m.bookmarkId, path := m.fromPath } :
                RevertedMove))).find? (fun m => m.bookmarkId == b.id) with
          | some m => { b with path := m.path }
          | none => b) := rfl
    rw [hw1, f1, List.map_map]
    simp only [hrms]
    apply map_eq_self_of_forall
    intro b0 hb0
    simp only [Function.comp]
    by_cases hcb : ids.contains b0.id = true
    · have hf : (if ids.contains b0.id = true then
          ({ b0 with path := P } : Bookmark) else b0) =
          { b0 with path := P } := if_pos hcb
      simp only [hf]
      rw [find?_map_revertedMove (pathOfId s.workingBookmarks) ids b0.id
        ((contains_iff_mem ids b0.id).mp hcb)]
      rw [pathOfId_eq s.workingBookmarks hwnd b0 hb0]
    · have hf : (if ids.contains b0.id = true then
          ({ b0 with path := P } : Bookmark) else b0) = b0 := if_neg hcb
      simp only [hf]
      rw [find?_map_revertedMove_none (pathOfId s.workingBookmarks) ids
        b0.id (fun hm => hcb ((contains_iff_mem ids b0.id).mpr hm))]
  · rw [undo_concat true _ l _ hist]
    have hp1 : (undoStep true
        (createMoveOperation meta s.workingBookmarks
          (buildMoves s.workingBookmarks ids P))
        l (moveBookmarksToFolder meta ids P s)).pendingMoves =
        (moveBookmarksToFolder meta ids P s).pendingMoves.filter (fun m =>
          !(((((buildMoves s.workingBookmarks ids P).map (fun mv =>
              ({ bookmarkId := mv.bookmarkId,
                 bookmark := s.workingBookmarks.find?
                   (fun b2 => b2.id == mv.bookmarkId),
                 fromPath := mv.fromPath,
                 toPath := mv.toPath } : MoveRecord))).map
            (fun mv =>
              ({ bookmarkId := mv.bookmarkId, path := mv.fromPath } :
                RevertedMove))).map
            (fun r => r.bookmarkId)).contains m.bookmarkId)) := rfl
    rw [hp1]
    have hids : ((((buildMoves s.workingBookmarks ids P).map (fun mv =>
          ({ bookmarkId := mv.bookmarkId,
             bookmark := s.workingBookmarks.find?
               (fun b2 => b2.id == mv.bookmarkId),
             fromPath := mv.fromPath,
             toPath := mv.toPath } : MoveRecord))).map
        (fun mv =>
          ({ bookmarkId := mv.bookmarkId, path := mv.fromPath } :
            RevertedMove))).map (fun r => r.bookmarkId)) = ids := by
      rw [hrms, List.map_map]
      exact map_eq_self_of_forall ids _ (fun a _ => rfl)
    simp only [hids]

/-- Witness for C6 at a concrete one-record state, discharging the
id-uniqueness and existence hypotheses. -/
theorem claim_C6_move_roundtrip_witness :
    (c6State.workingBookmarks.map (fun b => b.id)).Nodup ∧
    (∀ id ∈ (["a"] : List String),
      id ∈ c6State.workingBookmarks.map (fun b => b.id)) ∧
    (undo true (moveBookmarksToFolder meta1 ["a"] ["F"]
        c6State)).workingBookmarks = c6State.workingBookmarks ∧
    ((moveBookmarksToFolder meta1 ["a"] ["F"]
        c6State).pendingMoves.drop c6State.pendingMoves.length).map
      (fun m => m.bookmarkId) = ["a"] := by
  have h := claim_C6_move_roundtrip meta1 ["a"] ["F"] c6State
    (by decide) (by decide)
  exact ⟨by decide, by decide, h.2.2.2.2.2.2.1, h.2.2.1⟩

end BookmarksCleanup
